import Mathlib

/-!
Verification development for the core of `deploy_config_generator`:
a shallow embedding of `src/deploy_config_generator/template.py` and
`src/deploy_config_generator/__main__.py`, with theorems about the
template renderer (variable substitution with the recursive `finalize`
pass, the type-marker round trip, the omit sentinel, the condition
evaluator) and about the per-application driver loop.

Conventions of the embedding:
* Python strings are Lean `String`; character-level scanning works on
  `List Char`.
* The Jinja2 environment built in `Template.__init__` uses the default
  `Undefined`, so a reference to an absent variable renders as empty
  text; the embedding models a variable scope as `String → Option String`
  and substitutes `""` for `none`.
* The Python call stack is made explicit as a fuel parameter: each
  re-rendering triggered by `Template.finalize` consumes one unit of
  fuel, and exhausted fuel is the embedding of the host interpreter
  recursion limit (`RecursionError`), since the source imposes no bound
  of its own.
* Python exceptions are `Except` values; `RErr.templateError` stands for
  `jinja2.TemplateSyntaxError`, `RErr.valueError` for `ValueError` from
  `int()`, and `RErr.recursionError` for the interpreter recursion limit.
-/

/-- Failure modes of the embedded rendering code. -/
inductive RErr where
  | recursionError : RErr
  | templateError : RErr
  | valueError : RErr
deriving DecidableEq

/-- A variable scope: the `args` dict handed to `render_template`, read
through dictionary lookup. -/
abbrev Scope := String → Option String

def lbrace : Char := Char.ofNat 123

def rbrace : Char := Char.ofNat 125

def percentCh : Char := '%'

def hashCh : Char := '#'

def nlChar : Char := Char.ofNat 10

/-- A parsed piece of a template string: literal character or a
substitution expression holding a variable name. -/
inductive Seg where
  | lit : Char → Seg
  | var : String → Seg

/-- Scanner for the template subset the source exercises: literal text
and variable substitution expressions.  Statement and comment blocks
are not modeled at the string level (the renderer rejects them; the
condition evaluator of lines 74-81 is modeled separately), and an
unterminated or malformed expression is the embedding of
`jinja2.TemplateSyntaxError`.  The first argument is `some acc` while
inside an expression whose name read so far is `acc`. -/
def tokenizeAux : Option (List Char) → List Char → Except RErr (List Seg)
  | none, [] => .ok []
  | some _, [] => .error .templateError
  | none, [c] => .ok [.lit c]
  | some _, [_] => .error .templateError
  | none, c1 :: c2 :: rest =>
    if c1 = lbrace ∧ c2 = lbrace then tokenizeAux (some []) rest
    else if c1 = lbrace ∧ (c2 = percentCh ∨ c2 = hashCh) then .error .templateError
    else
      match tokenizeAux none (c2 :: rest) with
      | .error e => .error e
      | .ok segs => .ok (.lit c1 :: segs)
  | some acc, c1 :: c2 :: rest =>
    if c1 = rbrace then
      if c2 = rbrace then
        match tokenizeAux none rest with
        | .error e => .error e
        | .ok segs => .ok (.var (String.mk acc) :: segs)
      else .error .templateError
    else tokenizeAux (some (acc ++ [c1])) (c2 :: rest)

/-- Parse a template string into segments. -/
def tokenize (cs : List Char) : Except RErr (List Seg) :=
  tokenizeAux none cs

/-- The test on line 26 of `template.py`: does a rendered value appear
to contain a template (`'{{' in value or '{%' in value`)? -/
def hasMarkup : List Char → Bool
  | c1 :: c2 :: rest =>
    if c1 = lbrace ∧ (c2 = lbrace ∨ c2 = percentCh) then true
    else hasMarkup (c2 :: rest)
  | _ => false

/-- `Template.finalize` (lines 18-28): a rendered variable value that
still contains template markup is rendered again; `deeper` is the
re-entry into the renderer with one unit of stack budget consumed. -/
def finalize (deeper : String → Except RErr (List Char)) (value : String) :
    Except RErr (List Char) :=
  if hasMarkup value.data then deeper value else .ok value.data

/-- Render a segment list: literals pass through, variables are looked
up (an absent variable is Jinja2 default `Undefined`, which prints as
empty text) and then run through `finalize`. -/
def segsRender (deeper : String → Except RErr (List Char)) (scope : Scope) :
    List Seg → Except RErr (List Char)
  | [] => .ok []
  | .lit c :: rest =>
    match segsRender deeper scope rest with
    | .error e => .error e
    | .ok tail => .ok (c :: tail)
  | .var nm :: rest =>
    match finalize deeper ((scope nm).getD "") with
    | .error e => .error e
    | .ok vr =>
      match segsRender deeper scope rest with
      | .error e => .error e
      | .ok tail => .ok (vr ++ tail)

/-- The embedding of `self._env.from_string(s).render(**args)`: parse
and render with a stack budget of `fuel` nested `finalize`
re-renderings.  At budget 0 any attempted re-rendering is the host
interpreter recursion limit. -/
def renderValue : Nat → Scope → String → Except RErr (List Char)
  | 0, scope, s =>
    match tokenize s.data with
    | .error e => .error e
    | .ok segs => segsRender (fun _ => .error RErr.recursionError) scope segs
  | fuel + 1, scope, s =>
    match tokenize s.data with
    | .error e => .error e
    | .ok segs => segsRender (renderValue fuel scope) scope segs

/-- A `{{name}}` reference as a string, used to state theorems about
indirection chains. -/
def varRef (w : String) : String :=
  String.mk (lbrace :: lbrace :: (w.data ++ [rbrace, rbrace]))

/-- The values `render_template` traverses: Python strings, ints,
floats, bools, lists and (insertion-ordered) dicts.  A Python float is
carried as its shortest round-tripping `repr` string, the form in which
it crosses the textual templating layer. -/
inductive Value where
  | str : String → Value
  | int : Int → Value
  | float : String → Value
  | bool : Bool → Value
  | list : List Value → Value
  | dict : List (String × Value) → Value

/-- Line 6 of `template.py`. -/
def OMIT_TOKEN : String := "__OMIT__TOKEN__"

/-- The comparison `v == OMIT_TOKEN` on lines 58 and 65: Python
equality of a value against the sentinel string is true exactly for an
equal string. -/
def isOmit : Value → Bool
  | .str s => s == OMIT_TOKEN
  | _ => false

/-- Decimal digit to character, as produced by Python `str` on
integers. -/
def digitChar : Nat → Char
  | 0 => '0'
  | 1 => '1'
  | 2 => '2'
  | 3 => '3'
  | 4 => '4'
  | 5 => '5'
  | 6 => '6'
  | 7 => '7'
  | 8 => '8'
  | 9 => '9'
  | _ => 'X'

/-- Character to decimal digit value. -/
def charDigitVal (c : Char) : Nat := c.toNat - 48

/-- Little-endian decimal digits of `n`, with explicit fuel so the
function is structurally recursive and computes; `fuel = n` is always
enough since `n < 10 ^ n`. -/
def natToDigitsRev : Nat → Nat → List Nat
  | 0, _ => []
  | fuel + 1, n => if n = 0 then [] else n % 10 :: natToDigitsRev fuel (n / 10)

/-- Python `str` on a natural number: its decimal digits, most
significant first. -/
def pyNatRepr (n : Nat) : List Char :=
  if n = 0 then ['0'] else ((natToDigitsRev n n).map digitChar).reverse

/-- Digit-string parsing, the core of Python `int()` on a string of
decimal digits (leading zeros allowed, anything else a `ValueError`;
surrounding whitespace and underscore separators, which Python also
accepts, are not modeled since `str` never produces them). -/
def pyParseNat (cs : List Char) : Option Nat :=
  if cs ≠ [] ∧ cs.all Char.isDigit then
    some (Nat.ofDigits 10 ((cs.map charDigitVal).reverse))
  else none

/-- Python `str` on an int: optional minus sign then decimal digits. -/
def pyIntRepr (i : Int) : List Char :=
  if i < 0 then '-' :: pyNatRepr i.natAbs else pyNatRepr i.natAbs

/-- Python `int()` on a string: optional sign then decimal digits,
`ValueError` otherwise. -/
def pyParseInt (cs : List Char) : Except RErr Int :=
  match cs with
  | [] => .error .valueError
  | c :: rest =>
    if c = '-' then
      match pyParseNat rest with
      | some n => .ok (-(n : Int))
      | none => .error .valueError
    else if c = '+' then
      match pyParseNat rest with
      | some n => .ok (n : Int)
      | none => .error .valueError
    else
      match pyParseNat cs with
      | some n => .ok (n : Int)
      | none => .error .valueError

/-- Python `str` on the scalar values the output filters receive.  The
`repr`-style text of containers is not modeled: no claim applies an
output filter to a container. -/
def pyStrOf : Value → String
  | .str s => s
  | .int i => String.mk (pyIntRepr i)
  | .float r => r
  | .bool true => "True"
  | .bool false => "False"
  | .list _ => ""
  | .dict _ => ""

def isLowerAZ (c : Char) : Bool := 'a' ≤ c ∧ c ≤ 'z'

/-- The regex of line 38,
`^__(?P<type>[a-z]+)__(.*)__(?P=type)__$`, applied to a character
list: leading `__`, a maximal nonempty run of lowercase letters (a
shorter run can never match, as the run must be followed by `__`),
`__`, then a payload, then `__`, the same run, `__` at the end.  The
payload may not contain a newline (`.` in Python `re`).  Python `$`
would additionally tolerate one trailing newline; that corner is not
modeled, as no filter output or claim input ends in a newline. -/
def parseMarker (cs : List Char) : Option (List Char × List Char) :=
  match cs with
  | '_' :: '_' :: rest =>
    let t := rest.takeWhile isLowerAZ
    let rest' := rest.dropWhile isLowerAZ
    if t = [] then none
    else
      match rest' with
      | '_' :: '_' :: mid =>
        let sfx := '_' :: '_' :: (t ++ ['_', '_'])
        if sfx.length ≤ mid.length ∧ mid.drop (mid.length - sfx.length) = sfx ∧
            (mid.take (mid.length - sfx.length)).all (fun c => c ≠ nlChar) then
          some (t, mid.take (mid.length - sfx.length))
        else none
      | _ => none
  | _ => none

/-- `Template.type_fixup` (lines 30-49): convert a string of the form
`__int__..__int__`, `__float__..__float__` or `__bool__..__bool__` to
the native value; anything else (including a marker with an unknown
type word) is returned unchanged.  `int()` may raise `ValueError`;
Python `float()` on the `repr` of a float returns that float, which is
what the `repr`-string representation of model floats encodes. -/
def type_fixup (value : Value) : Except RErr Value :=
  match value with
  | .str s =>
    match parseMarker s.data with
    | some (t, payload) =>
      if t = "int".data then
        match pyParseInt payload with
        | .ok n => .ok (.int n)
        | .error e => .error e
      else if t = "float".data then .ok (.float (String.mk payload))
      else if t = "bool".data then
        .ok (.bool (payload.map Char.toLower = "true".data))
      else .ok value
    | none => .ok value
  | v => .ok v

/-- `filter_output_int` (lines 84-85). -/
def filter_output_int (arg : Value) : Value :=
  .str ("__int__" ++ pyStrOf arg ++ "__int__")

/-- `filter_output_float` (lines 88-89). -/
def filter_output_float (arg : Value) : Value :=
  .str ("__float__" ++ pyStrOf arg ++ "__float__")

/-- `filter_output_bool` (lines 92-93). -/
def filter_output_bool (arg : Value) : Value :=
  .str ("__bool__" ++ pyStrOf arg ++ "__bool__")

mutual

/-- `Template.render_template` (lines 51-72): recursively render
dicts, lists and strings; scalars pass through.  A string leaf is
rendered by the Jinja2 environment (`renderValue`); note that the
string branch (line 70) applies no `type_fixup` to its result. -/
def render_template : Nat → Scope → Value → Except RErr Value
  | fuel, scope, .dict entries =>
    match renderEntries fuel scope entries with
    | .error e => .error e
    | .ok out => .ok (.dict out)
  | fuel, scope, .list items =>
    match renderItems fuel scope items with
    | .error e => .error e
    | .ok out => .ok (.list out)
  | fuel, scope, .str s =>
    match renderValue fuel scope s with
    | .error e => .error e
    | .ok cs => .ok (.str (String.mk cs))
  | _, _, .int n => .ok (.int n)
  | _, _, .float r => .ok (.float r)
  | _, _, .bool b => .ok (.bool b)

/-- The dict loop of lines 56-61: skip entries whose (pre-render)
value equals the omit sentinel, otherwise store
`type_fixup(render_template(v, args))` under the same key, preserving
insertion order. -/
def renderEntries : Nat → Scope → List (String × Value) →
    Except RErr (List (String × Value))
  | _, _, [] => .ok []
  | fuel, scope, (k, v) :: rest =>
    if isOmit v then renderEntries fuel scope rest
    else
      match render_template fuel scope v with
      | .error e => .error e
      | .ok rv =>
        match type_fixup rv with
        | .error e => .error e
        | .ok fv =>
          match renderEntries fuel scope rest with
          | .error e => .error e
          | .ok tail => .ok ((k, fv) :: tail)

/-- The list loop of lines 62-68, same skipping and fixup as the dict
loop, order preserved. -/
def renderItems : Nat → Scope → List Value → Except RErr (List Value)
  | _, _, [] => .ok []
  | fuel, scope, v :: rest =>
    if isOmit v then renderItems fuel scope rest
    else
      match render_template fuel scope v with
      | .error e => .error e
      | .ok rv =>
        match type_fixup rv with
        | .error e => .error e
        | .ok fv =>
          match renderItems fuel scope rest with
          | .error e => .error e
          | .ok tail => .ok (fv :: tail)

end

/-- `Template.evaluate_condition`, lines 79-81 (the module-level
`evaluate_condition` of lines 119-126 has the same tail): the argument
is the text produced by rendering
`'{% if ' + condition + ' %}True{% else %}False{% endif %}'` on line
78.  Because the condition string is spliced into the template text,
that rendered text can be arbitrary (a condition containing block
syntax changes the template's structure), so the rendered text is the
input of the embedding.  The code compares it with `'True'` and
returns a boolean; no code path raises. -/
def evaluate_condition (ret : String) : Bool :=
  if ret = "True" then true else false

/-- Jinja syntax detection for stating the identity property: none of
`\x7b\x7b`, `\x7b%`, `\x7b#` occurs, so Jinja2 renders the string as
pure literal text. -/
def noTemplateMarkup : List Char → Bool
  | c1 :: c2 :: rest =>
    if c1 = lbrace ∧ (c2 = lbrace ∨ c2 = percentCh ∨ c2 = hashCh) then false
    else noTemplateMarkup (c2 :: rest)
  | _ => true

/-- A chain of variable indirections in a scope: `VarChain scope v t n`
says looking up `v` and following `n` further `\x7b\x7bname\x7d\x7d`
indirections ends at the markup-free text `t`. -/
inductive VarChain (scope : Scope) : String → String → Nat → Prop where
  | direct (v t : String) :
      scope v = some t → hasMarkup t.data = false → VarChain scope v t 0
  | indirect (v w t : String) (n : Nat) :
      scope v = some (varRef w) → rbrace ∉ w.data →
      VarChain scope w t n → VarChain scope v t (n + 1)

/-- The empty variable scope. -/
def emptyScope : Scope := fun _ => none

/-- A self-referential scope: variable `a` expands to a reference to
itself, the shortest cyclic chain. -/
def cycScope : Scope := fun s => if s = "a" then some (varRef "a") else none

/-- A two-step indirection chain: `x` expands to a reference to `y`,
which holds plain text. -/
def chainScopeEx : Scope :=
  fun s => if s = "x" then some (varRef "y")
    else if s = "y" then some "val" else none

/-- A scope whose variable `p` holds int-marker text, as produced by
the `output_int` filter during an inner rendering. -/
def markerScopeEx : Scope :=
  fun s => if s = "p" then some "__int__8080__int__" else none

/-- A scope whose variable `x` holds the omit sentinel text, so a
template referencing it renders to the sentinel only after
substitution. -/
def omitScopeEx : Scope :=
  fun s => if s = "x" then some OMIT_TOKEN else none

/-!
Embedding of the driver loop of `__main__.py`.  An application
descriptor is its list of declared field names (the loop on line 66
iterates the mapping's keys; values play no role in the modeled
paths).  Output plugins are modeled at the contract boundary: a name,
the schema membership test `has_field`, the participation test
`is_needed`, and `generate`, whose outcome is success or a
`ConfigGenerationError` carrying its message.  `DISPLAY.display`
becomes an accumulated message list.
-/

/-- An application descriptor, reduced to its declared field names. -/
abbrev App := List String

/-- The output-plugin contract used by the driver loop. -/
structure OutputPlugin where
  name : String
  has_field : String → Bool
  is_needed : App → Bool
  generate : App → Nat → Except String Unit

/-- The inner loop test of lines 67-71: some plugin declares the field
and considers the app in scope. -/
def fieldIsValid (plugins : List OutputPlugin) (app : App) (f : String) : Bool :=
  plugins.any (fun p => p.has_field f && p.is_needed app)

/-- The message displayed on lines 73-75 for an unknown field. -/
def unknownFieldMsg (f : String) (ordinal : Nat) : String :=
  "Failed to load deploy config: field \x27" ++ f ++ "\x27 in application " ++
    toString ordinal ++ " is not valid for relevant output plugins"

/-- `app_validate_fields` (lines 63-75): the first field not accepted
by any relevant plugin raises `DeployConfigError`, which the function
itself catches and displays; it returns nothing, so the caller cannot
observe failure. -/
def app_validate_fields (app : App) (app_index : Nat)
    (plugins : List OutputPlugin) : List String :=
  match app.find? (fun f => !(fieldIsValid plugins app f)) with
  | some f => [unknownFieldMsg f (app_index + 1)]
  | none => []

/-- The plugin loop of `app_render_output` (lines 78-84).  The `try`
wraps the whole loop, so the first `ConfigGenerationError` leaves the
loop.  Returns the displayed messages and, to make the control flow
observable, the names of the plugins whose `generate` was invoked. -/
def renderLoop (app : App) (ordinal : Nat) :
    List OutputPlugin → List String × List String
  | [] => ([], [])
  | p :: rest =>
    if p.is_needed app then
      match p.generate app ordinal with
      | .error e => (["Failed to generate deploy config: " ++ e], [p.name])
      | .ok _ =>
        match renderLoop app ordinal rest with
        | (msgs, calls) => (msgs, p.name :: calls)
    else renderLoop app ordinal rest

/-- `app_render_output` (lines 78-84): run the plugin loop with the
one-based application ordinal. -/
def app_render_output (app : App) (app_index : Nat)
    (plugins : List OutputPlugin) : List String × List String :=
  renderLoop app (app_index + 1) plugins

/-- The per-application loop of `main` (lines 150-152), carrying the
running index: each application is validated, then rendered,
unconditionally. -/
def processAppsFrom (plugins : List OutputPlugin) :
    Nat → List App → List (List String × (List String × List String))
  | _, [] => []
  | i, app :: rest =>
    (app_validate_fields app i plugins, app_render_output app i plugins) ::
      processAppsFrom plugins (i + 1) rest

/-- The driver loop over the whole deploy config. -/
def processApps (deploy_config : List App) (plugins : List OutputPlugin) :
    List (List String × (List String × List String)) :=
  processAppsFrom plugins 0 deploy_config

/-- A plugin accepting only the field `name`, needed by every app,
generating successfully. -/
def pluginOkEx : OutputPlugin :=
  ⟨"dummy", fun f => f == "name", fun _ => true, fun _ _ => .ok ()⟩

/-- A plugin whose `generate` always raises `ConfigGenerationError`. -/
def pluginFailEx : OutputPlugin :=
  ⟨"p1", fun _ => true, fun _ => true, fun _ _ => .error "boom"⟩

/-- A second plugin behind `pluginFailEx`, generating successfully. -/
def pluginAfterEx : OutputPlugin :=
  ⟨"p2", fun _ => true, fun _ => true, fun _ _ => .ok ()⟩

/-! ## Helper lemmas: the string renderer -/

theorem mk_data_eq (w : String) : String.mk w.data = w := rfl

theorem tokenizeAux_name (nm : List Char) (rest : List Char)
    (h : rbrace ∉ nm) : ∀ acc,
    tokenizeAux (some acc) (nm ++ rbrace :: rbrace :: rest) =
      (tokenizeAux none rest).map
        (fun segs => Seg.var (String.mk (acc ++ nm)) :: segs) := by
  induction nm with
  | nil =>
    intro acc
    cases hres : tokenizeAux none rest <;>
      simp [tokenizeAux, hres, Except.map]
  | cons c nm ih =>
    intro acc
    have hc : c ≠ rbrace := fun hc => h (hc ▸ List.mem_cons_self c nm)
    have hnm : rbrace ∉ nm := fun hm => h (List.mem_cons_of_mem c hm)
    cases nm with
    | nil =>
      cases hres : tokenizeAux none rest <;>
        simp [tokenizeAux, hc, hres, Except.map]
    | cons c2 nm2 =>
      have := ih hnm (acc ++ [c])
      simpa [tokenizeAux, hc, List.append_assoc] using this

theorem tokenize_varRef (w : String) (h : rbrace ∉ w.data) :
    tokenize (varRef w).data = .ok [Seg.var w] := by
  show tokenizeAux none (lbrace :: lbrace :: (w.data ++ [rbrace, rbrace])) = _
  have : (w.data ++ [rbrace, rbrace]) = w.data ++ rbrace :: rbrace :: [] := rfl
  simp [tokenizeAux, this, tokenizeAux_name w.data [] h, Except.map, mk_data_eq]

theorem hasMarkup_varRef (w : String) : hasMarkup (varRef w).data = true := by
  show hasMarkup (lbrace :: lbrace :: _) = true
  simp [hasMarkup]

theorem segsRender_lits (deeper : String → Except RErr (List Char))
    (scope : Scope) : ∀ cs : List Char,
    segsRender deeper scope (cs.map Seg.lit) = .ok cs := by
  intro cs
  induction cs with
  | nil => rfl
  | cons c cs ih => simp [segsRender, ih]

theorem tokenizeAux_lits : ∀ cs : List Char, noTemplateMarkup cs = true →
    tokenizeAux none cs = .ok (cs.map Seg.lit) := by
  intro cs
  induction cs with
  | nil => intro _; rfl
  | cons c cs ih =>
    intro h
    cases cs with
    | nil => rfl
    | cons c2 rest =>
      rw [noTemplateMarkup] at h
      by_cases hcond : c = lbrace ∧ (c2 = lbrace ∨ c2 = percentCh ∨ c2 = hashCh)
      · simp [hcond] at h
      · rw [if_neg hcond] at h
        have h1 : ¬(c = lbrace ∧ c2 = lbrace) := fun ⟨a, b⟩ => hcond ⟨a, Or.inl b⟩
        have h2 : ¬(c = lbrace ∧ (c2 = percentCh ∨ c2 = hashCh)) := by
          rintro ⟨a, b | b⟩
          · exact hcond ⟨a, Or.inr (Or.inl b)⟩
          · exact hcond ⟨a, Or.inr (Or.inr b)⟩
        simp [tokenizeAux, h1, h2, ih h]

theorem renderValue_lits (fuel : Nat) (scope : Scope) (s : String)
    (h : noTemplateMarkup s.data = true) :
    renderValue fuel scope s = .ok s.data := by
  cases fuel with
  | zero => simp [renderValue, tokenize, tokenizeAux_lits _ h, segsRender_lits]
  | succ f => simp [renderValue, tokenize, tokenizeAux_lits _ h, segsRender_lits]

theorem varChain_resolves {scope : Scope} {v t : String} {n : Nat}
    (hc : VarChain scope v t n) : rbrace ∉ v.data →
    ∀ fuel, n ≤ fuel → renderValue fuel scope (varRef v) = .ok t.data := by
  induction hc with
  | direct v t hv ht =>
    intro hv' fuel _
    cases fuel with
    | zero =>
      simp [renderValue, tokenize_varRef v hv', segsRender, finalize, hv, ht]
    | succ f =>
      simp [renderValue, tokenize_varRef v hv', segsRender, finalize, hv, ht]
  | indirect v w t n hv hw _ ih =>
    intro hv' fuel hf
    cases fuel with
    | zero => omega
    | succ f =>
      have hres := ih hw f (by omega)
      simp [renderValue, tokenize_varRef v hv', segsRender, finalize, hv,
        hasMarkup_varRef, hres]

theorem cyc_stuck : ∀ fuel,
    renderValue fuel cycScope (varRef "a") = .error RErr.recursionError := by
  intro fuel
  induction fuel with
  | zero => rfl
  | succ f ih =>
    have ht : tokenize (varRef "a").data = .ok [Seg.var "a"] := rfl
    have hs : cycScope "a" = some (varRef "a") := rfl
    simp [renderValue, tokenize] at ht ⊢
    simp [ht, segsRender, finalize, hs, hasMarkup_varRef, ih]

/-! ## Helper lemmas: type markers and Python number text -/

theorem takeWhile_append_stop (p : Char → Bool) (c : Char) (tl : List Char)
    (hc : p c = false) : ∀ l : List Char, l.all p = true →
    (l ++ c :: tl).takeWhile p = l ∧ (l ++ c :: tl).dropWhile p = c :: tl := by
  intro l
  induction l with
  | nil => intro _; simp [List.takeWhile_cons, List.dropWhile_cons, hc]
  | cons a l ih =>
    intro h
    obtain ⟨ha, hl⟩ : p a = true ∧ l.all p = true := by simpa using h
    have := ih hl
    simp [List.takeWhile_cons, List.dropWhile_cons, ha, this.1, this.2]

theorem parseMarker_wrap (t payload : List Char) (ht : t ≠ [])
    (hlow : t.all isLowerAZ = true)
    (hnl : payload.all (fun c => c ≠ nlChar) = true) :
    parseMarker ('_' :: '_' ::
        (t ++ '_' :: '_' :: (payload ++ '_' :: '_' :: (t ++ ['_', '_'])))) =
      some (t, payload) := by
  have hu : isLowerAZ '_' = false := by decide
  have htw := takeWhile_append_stop isLowerAZ '_'
    ('_' :: (payload ++ '_' :: '_' :: (t ++ ['_', '_']))) hu t hlow
  have hlen : ('_' :: '_' :: (t ++ ['_', '_'])).length ≤
      (payload ++ '_' :: '_' :: (t ++ ['_', '_'])).length := by
    simp [List.length_append]
  have hdiff : (payload ++ '_' :: '_' :: (t ++ ['_', '_'])).length -
      ('_' :: '_' :: (t ++ ['_', '_'])).length = payload.length := by
    simp [List.length_append]
  have hdrop : (payload ++ '_' :: '_' :: (t ++ ['_', '_'])).drop payload.length =
      '_' :: '_' :: (t ++ ['_', '_']) := List.drop_left payload _
  have htake : (payload ++ '_' :: '_' :: (t ++ ['_', '_'])).take payload.length =
      payload := List.take_left payload _
  simp only [parseMarker, htw.1, htw.2, hdiff, hdrop, htake]
  rw [if_neg ht]
  have hnl' : nlChar ∉ payload := by
    intro hm
    have := List.all_eq_true.mp hnl _ hm
    simp at this
  simp [hlen, hnl']

theorem charDigitVal_digitChar {d : Nat} (h : d < 10) :
    charDigitVal (digitChar d) = d := by
  interval_cases d <;> decide

theorem digitChar_isDigit {d : Nat} (h : d < 10) :
    (digitChar d).isDigit = true := by
  interval_cases d <;> decide

theorem natToDigitsRev_lt : ∀ fuel n d, d ∈ natToDigitsRev fuel n → d < 10 := by
  intro fuel
  induction fuel with
  | zero => intro n d h; simp [natToDigitsRev] at h
  | succ f ih =>
    intro n d h
    rw [natToDigitsRev] at h
    by_cases hn : n = 0
    · simp [hn] at h
    · rw [if_neg hn] at h
      rcases List.mem_cons.mp h with h | h
      · omega
      · exact ih _ _ h

theorem ofDigits_natToDigitsRev : ∀ fuel n, n < 10 ^ fuel →
    Nat.ofDigits 10 (natToDigitsRev fuel n) = n := by
  intro fuel
  induction fuel with
  | zero =>
    intro n h
    simp [pow_zero] at h
    simp [natToDigitsRev, h, Nat.ofDigits_nil]
  | succ f ih =>
    intro n h
    rw [natToDigitsRev]
    by_cases hn : n = 0
    · simp [hn, Nat.ofDigits_nil]
    · rw [if_neg hn, Nat.ofDigits_cons]
      have hdiv : n / 10 < 10 ^ f := by
        rw [Nat.div_lt_iff_lt_mul (by norm_num)]
        calc n < 10 ^ (f + 1) := h
        _ = 10 ^ f * 10 := by rw [pow_succ]
      rw [ih _ hdiv]
      omega

theorem natToDigitsRev_ne_nil {fuel n : Nat} (hf : 0 < fuel) (hn : 0 < n) :
    natToDigitsRev fuel n ≠ [] := by
  cases fuel with
  | zero => omega
  | succ f => simp [natToDigitsRev, Nat.pos_iff_ne_zero.mp hn]

theorem pyNatRepr_all_digit (n : Nat) :
    (pyNatRepr n).all Char.isDigit = true := by
  rw [pyNatRepr]
  by_cases hn : n = 0
  · simp [hn]
  · rw [if_neg hn]
    rw [List.all_eq_true]
    intro c hc
    rw [List.mem_reverse, List.mem_map] at hc
    obtain ⟨d, hd, rfl⟩ := hc
    exact digitChar_isDigit (natToDigitsRev_lt _ _ _ hd)

theorem pyNatRepr_ne_nil (n : Nat) : pyNatRepr n ≠ [] := by
  rw [pyNatRepr]
  by_cases hn : n = 0
  · simp [hn]
  · rw [if_neg hn]
    simp only [ne_eq, List.reverse_eq_nil_iff, List.map_eq_nil_iff]
    exact natToDigitsRev_ne_nil (by omega) (by omega)

theorem pyParseNat_pyNatRepr (n : Nat) : pyParseNat (pyNatRepr n) = some n := by
  rw [pyParseNat, if_pos ⟨pyNatRepr_ne_nil n, pyNatRepr_all_digit n⟩]
  by_cases hn : n = 0
  · subst hn; rfl
  · rw [pyNatRepr, if_neg hn]
    rw [List.map_reverse, List.reverse_reverse, List.map_map]
    have hmap : (natToDigitsRev n n).map (charDigitVal ∘ digitChar) =
        natToDigitsRev n n := by
      have : (natToDigitsRev n n).map (charDigitVal ∘ digitChar) =
          (natToDigitsRev n n).map id := by
        apply List.map_congr_left
        intro d hd
        exact charDigitVal_digitChar (natToDigitsRev_lt _ _ _ hd)
      rw [this, List.map_id]
    rw [hmap, ofDigits_natToDigitsRev n n (Nat.lt_pow_self (by norm_num) n)]

theorem isDigit_ne_minus {c : Char} (h : c.isDigit = true) : c ≠ '-' := by
  intro hc; subst hc; simp [Char.isDigit] at h

theorem isDigit_ne_plus {c : Char} (h : c.isDigit = true) : c ≠ '+' := by
  intro hc; subst hc; simp [Char.isDigit] at h

theorem isDigit_ne_nl {c : Char} (h : c.isDigit = true) : c ≠ nlChar := by
  intro hc; subst hc; simp [Char.isDigit, nlChar, Char.ofNat] at h

theorem pyParseInt_pyIntRepr (i : Int) : pyParseInt (pyIntRepr i) = .ok i := by
  rw [pyIntRepr]
  by_cases hi : i < 0
  · rw [if_pos hi, pyParseInt]
    rw [if_pos rfl, pyParseNat_pyNatRepr]
    show Except.ok (-(i.natAbs : Int)) = Except.ok i
    congr 1
    omega
  · rw [if_neg hi]
    have hne := pyNatRepr_ne_nil i.natAbs
    have hdig := pyNatRepr_all_digit i.natAbs
    cases hcs : pyNatRepr i.natAbs with
    | nil => exact absurd hcs hne
    | cons c rest =>
      have hcd : c.isDigit = true := by
        rw [hcs] at hdig
        exact (List.all_eq_true.mp hdig c (List.mem_cons_self c rest))
      rw [pyParseInt]
      rw [if_neg (isDigit_ne_minus hcd), if_neg (isDigit_ne_plus hcd)]
      rw [← hcs, pyParseNat_pyNatRepr]
      show Except.ok ((i.natAbs : Int)) = Except.ok i
      congr 1
      omega

theorem pyIntRepr_no_nl (i : Int) :
    (pyIntRepr i).all (fun c => c ≠ nlChar) = true := by
  have hnat : ∀ n : Nat, (pyNatRepr n).all (fun c => c ≠ nlChar) = true := by
    intro n
    rw [List.all_eq_true]
    intro c hc
    have := List.all_eq_true.mp (pyNatRepr_all_digit n) c hc
    simpa using isDigit_ne_nl this
  rw [pyIntRepr]
  by_cases hi : i < 0
  · rw [if_pos hi]
    rw [List.all_cons, Bool.and_eq_true]
    exact ⟨by decide, hnat i.natAbs⟩
  · rw [if_neg hi]; exact hnat i.natAbs

/-! ## Helper lemmas: container rendering and the driver loop -/

theorem renderItems_forall₂ (fuel : Nat) (scope : Scope) :
    ∀ items out, renderItems fuel scope items = .ok out →
    List.Forall₂
      (fun v r => ∃ rv, render_template fuel scope v = .ok rv ∧
        type_fixup rv = .ok r)
      (items.filter (fun v => !(isOmit v))) out := by
  intro items
  induction items with
  | nil =>
    intro out h
    rw [renderItems] at h
    cases h
    simp [List.filter_nil]
  | cons v rest ih =>
    intro out h
    rw [renderItems] at h
    by_cases hv : isOmit v = true
    · rw [if_pos hv] at h
      rw [List.filter_cons, if_neg (by simp [hv])]
      exact ih out h
    · rw [if_neg hv] at h
      cases h1 : render_template fuel scope v with
      | error e => simp only [h1] at h; exact Except.noConfusion h
      | ok rv =>
        simp only [h1] at h
        cases h2 : type_fixup rv with
        | error e => simp only [h2] at h; exact Except.noConfusion h
        | ok fv =>
          simp only [h2] at h
          cases h3 : renderItems fuel scope rest with
          | error e => simp only [h3] at h; exact Except.noConfusion h
          | ok tail =>
            simp only [h3, Except.ok.injEq] at h
            subst h
            rw [List.filter_cons, if_pos (by simp [hv])]
            exact List.Forall₂.cons ⟨rv, h1, h2⟩ (ih tail h3)

theorem renderEntries_forall₂ (fuel : Nat) (scope : Scope) :
    ∀ entries out, renderEntries fuel scope entries = .ok out →
    List.Forall₂
      (fun e r => e.1 = r.1 ∧ ∃ rv, render_template fuel scope e.2 = .ok rv ∧
        type_fixup rv = .ok r.2)
      (entries.filter (fun e => !(isOmit e.2))) out := by
  intro entries
  induction entries with
  | nil =>
    intro out h
    rw [renderEntries] at h
    cases h
    simp [List.filter_nil]
  | cons e rest ih =>
    intro out h
    obtain ⟨k, v⟩ := e
    rw [renderEntries] at h
    by_cases hv : isOmit v = true
    · rw [if_pos hv] at h
      rw [List.filter_cons, if_neg (by simp [hv])]
      exact ih out h
    · rw [if_neg hv] at h
      cases h1 : render_template fuel scope v with
      | error e => simp only [h1] at h; exact Except.noConfusion h
      | ok rv =>
        simp only [h1] at h
        cases h2 : type_fixup rv with
        | error e => simp only [h2] at h; exact Except.noConfusion h
        | ok fv =>
          simp only [h2] at h
          cases h3 : renderEntries fuel scope rest with
          | error e => simp only [h3] at h; exact Except.noConfusion h
          | ok tail =>
            simp only [h3, Except.ok.injEq] at h
            subst h
            rw [List.filter_cons, if_pos (by simp [hv])]
            exact List.Forall₂.cons ⟨rfl, rv, h1, h2⟩ (ih tail h3)

theorem processAppsFrom_get? (plugins : List OutputPlugin) :
    ∀ apps j i app, apps.get? i = some app →
    (processAppsFrom plugins j apps).get? i =
      some (app_validate_fields app (j + i) plugins,
        app_render_output app (j + i) plugins) := by
  intro apps
  induction apps with
  | nil => intro j i app h; simp at h
  | cons a rest ih =>
    intro j i app h
    cases i with
    | zero =>
      simp only [List.get?] at h
      cases h
      simp [processAppsFrom]
    | succ i =>
      simp only [List.get?] at h
      have := ih (j + 1) i app h
      have harith : j + 1 + i = j + (i + 1) := by omega
      rw [harith] at this
      simpa [processAppsFrom, List.get?] using this

theorem processAppsFrom_length (plugins : List OutputPlugin) :
    ∀ j apps, (processAppsFrom plugins j apps).length = apps.length := by
  intro j apps
  induction apps generalizing j with
  | nil => rfl
  | cons a rest ih => simp [processAppsFrom, ih]

theorem app_validate_reports (plugins : List OutputPlugin) (app : App)
    (idx : Nat) (f : String) (hf : f ∈ app)
    (hbad : fieldIsValid plugins app f = false) :
    ∃ g, g ∈ app ∧ fieldIsValid plugins app g = false ∧
      app_validate_fields app idx plugins = [unknownFieldMsg g (idx + 1)] := by
  have hsome : (app.find? (fun x => !(fieldIsValid plugins app x))).isSome := by
    rw [List.find?_isSome]
    exact ⟨f, hf, by simp [hbad]⟩
  obtain ⟨g, hg⟩ := Option.isSome_iff_exists.mp hsome
  refine ⟨g, List.mem_of_find?_eq_some hg, ?_, ?_⟩
  · have := List.find?_some hg
    simpa using this
  · rw [app_validate_fields, hg]

theorem renderLoop_all_ok (app : App) (ordinal : Nat) :
    ∀ plugins : List OutputPlugin,
    (∀ p ∈ plugins, p.generate app ordinal = .ok ()) →
    renderLoop app ordinal plugins =
      ([], (plugins.filter (fun p => p.is_needed app)).map
        (fun p => p.name)) := by
  intro plugins
  induction plugins with
  | nil => intro _; rfl
  | cons p rest ih =>
    intro h
    have hp := h p (List.mem_cons_self p rest)
    have hrest := ih (fun q hq => h q (List.mem_cons_of_mem p hq))
    rw [renderLoop]
    by_cases hneed : p.is_needed app = true
    · rw [if_pos hneed, hp, hrest]
      rw [List.filter_cons, if_pos (by simp [hneed])]
      simp
    · rw [if_neg hneed, hrest]
      rw [List.filter_cons, if_neg (by simpa using hneed)]

/-! ## Claim theorems -/

/-- C1, counterexample: on the self-referential scope, rendering does
not terminate with a dedicated depth-exceeded rendering error; at
stack budget 50, and equally at budget 100, it ends in the host
recursion limit (the error type of the embedded code has no
depth-exceeded kind at all, because the source defines none). -/
theorem c1_counterexample :
    render_template 50 cycScope (.str (varRef "a")) =
      .error RErr.recursionError ∧
    render_template 100 cycScope (.str (varRef "a")) =
      .error RErr.recursionError := by
  constructor
  · have h := cyc_stuck 50
    rw [render_template, h]
  · have h := cyc_stuck 100
    rw [render_template, h]

/-- C1 (amended): the finalize re-rendering pass has no depth limit of
its own.  A chain of `n` variable indirections resolves fully whenever
the host stack budget exceeds `n` (for every `n`, so no constant bound
exists), and on a cyclic chain rendering exhausts every stack budget
and fails with the host recursion limit, never with a dedicated
rendering-depth error. -/
theorem c1_finalize_unbounded :
    (∀ (scope : Scope) (v t : String) (n fuel : Nat), VarChain scope v t n →
      rbrace ∉ v.data → n ≤ fuel →
      render_template fuel scope (.str (varRef v)) = .ok (.str t)) ∧
    (∀ fuel, render_template fuel cycScope (.str (varRef "a")) =
      .error RErr.recursionError) := by
  constructor
  · intro scope v t n fuel hc hv hf
    have := varChain_resolves hc hv fuel hf
    simp [render_template, this, mk_data_eq]
  · intro fuel
    simp [render_template, cyc_stuck fuel]

/-- C1, witness: a concrete two-step chain resolves at stack budget 7,
and the concrete cycle fails there. -/
theorem c1_witness :
    render_template 7 chainScopeEx (.str (varRef "x")) = .ok (.str "val") ∧
    render_template 7 cycScope (.str (varRef "a")) =
      .error RErr.recursionError := by
  constructor
  · exact c1_finalize_unbounded.1 chainScopeEx "x" "val" 1 7
      (VarChain.indirect "x" "y" "val" 0 rfl (by decide)
        (VarChain.direct "y" "val" rfl (by decide)))
      (by decide) (by decide)
  · exact c1_finalize_unbounded.2 7

/-- C2: the type-marker round trip.  For each marker type, applying
`type_fixup` to the wrapped string produced by the corresponding
output filter recovers the native value (bool payloads are compared
case-insensitively against `true`), and any value not matching the
marker pattern is returned unchanged. -/
theorem c2_type_marker_round_trip :
    (∀ n : Int, type_fixup (filter_output_int (.int n)) = .ok (.int n)) ∧
    (∀ r : String, r.data.all (fun c => c ≠ nlChar) = true →
      type_fixup (filter_output_float (.float r)) = .ok (.float r)) ∧
    (∀ b : Bool, type_fixup (filter_output_bool (.bool b)) = .ok (.bool b)) ∧
    (∀ v : Value, (∀ s, v = Value.str s → parseMarker s.data = none) →
      type_fixup v = .ok v) := by
  refine ⟨?_, ?_, ?_, ?_⟩
  · intro n
    have hpm := parseMarker_wrap ("int".data) (pyIntRepr n) (by decide)
      (by decide) (pyIntRepr_no_nl n)
    have hdata : parseMarker
        (("__int__" ++ String.mk (pyIntRepr n) ++ "__int__").data) =
        some ("int".data, pyIntRepr n) := hpm
    show type_fixup (.str ("__int__" ++ String.mk (pyIntRepr n) ++ "__int__")) =
      .ok (.int n)
    simp only [type_fixup, hdata, if_pos rfl]
    rw [pyParseInt_pyIntRepr]
    simp
  · intro r hnl
    have hpm := parseMarker_wrap ("float".data) r.data (by decide)
      (by decide) hnl
    have hdata : parseMarker
        (("__float__" ++ r ++ "__float__").data) =
        some ("float".data, r.data) := hpm
    show type_fixup (.str ("__float__" ++ r ++ "__float__")) = .ok (.float r)
    simp only [type_fixup, hdata]
    simp [mk_data_eq]
  · intro b
    cases b <;> rfl
  · intro v h
    cases v with
    | str s => simp only [type_fixup, h s rfl]
    | int n => rfl
    | float r => rfl
    | bool b => rfl
    | list l => rfl
    | dict d => rfl

/-- C2, witness: concrete round trips for each marker type and a
concrete unchanged non-marker value. -/
theorem c2_witness :
    type_fixup (filter_output_int (.int (-38))) = .ok (.int (-38)) ∧
    type_fixup (filter_output_float (.float "2.5")) = .ok (.float "2.5") ∧
    type_fixup (filter_output_bool (.bool true)) = .ok (.bool true) ∧
    type_fixup (.str "plain") = .ok (.str "plain") := by
  refine ⟨c2_type_marker_round_trip.1 (-38),
    c2_type_marker_round_trip.2.1 "2.5" (by decide),
    c2_type_marker_round_trip.2.2.1 true,
    c2_type_marker_round_trip.2.2.2 (.str "plain") ?_⟩
  intro s hs
  cases hs
  decide

/-- C3, counterexample: a string passed directly to `render_template`
(line 70) gets no type fixup, so int-marker text survives into the
renderer's final result, contradicting both the direct-string fixup
and the guarantee that no marker text ever appears in the result. -/
theorem c3_counterexample :
    render_template 5 emptyScope (.str "__int__5__int__") =
      .ok (.str "__int__5__int__") := rfl

/-- C3 (amended): type fixup is applied to every rendered leaf nested
inside a mapping or sequence, but a string passed directly to
`render_template` is returned as its rendered text with no fixup, so
marker text can appear in the final result in that top-level-string
case. -/
theorem c3_fixup_container_only :
    (∀ (fuel : Nat) (scope : Scope) (k : String) (v rv fv : Value),
      isOmit v = false → render_template fuel scope v = .ok rv →
      type_fixup rv = .ok fv →
      render_template fuel scope (.dict [(k, v)]) = .ok (.dict [(k, fv)])) ∧
    (∀ (fuel : Nat) (scope : Scope) (s : String) (cs : List Char),
      renderValue fuel scope s = .ok cs →
      render_template fuel scope (.str s) = .ok (.str (String.mk cs))) := by
  constructor
  · intro fuel scope k v rv fv hv h1 h2
    rw [render_template, renderEntries, if_neg (by simp [hv])]
    simp only [h1, h2, renderEntries]
  · intro fuel scope s cs h
    simp [render_template, h]

/-- C3, witness: the same marker text is fixed up to a native int when
the string sits inside a dict, and survives verbatim when the string
is the top-level input. -/
theorem c3_witness :
    render_template 2 markerScopeEx (.dict [("port", .str (varRef "p"))]) =
      .ok (.dict [("port", .int 8080)]) ∧
    render_template 2 markerScopeEx (.str (varRef "p")) =
      .ok (.str "__int__8080__int__") := by
  constructor
  · exact c3_fixup_container_only.1 2 markerScopeEx "port"
      (.str (varRef "p")) (.str "__int__8080__int__") (.int 8080)
      rfl rfl rfl
  · exact c3_fixup_container_only.2 2 markerScopeEx (varRef "p")
      ("__int__8080__int__".data) rfl

/-- C4, counterexample: a rendered conditional result that is not a
clean boolean text is answered with the value `false`; no
`ConditionError` exists in the code and nothing is raised. -/
theorem c4_counterexample :
    evaluate_condition "Maybe" = false ∧ ("Maybe" : String) ≠ "True" ∧
      ("Maybe" : String) ≠ "False" :=
  ⟨rfl, by decide, by decide⟩

/-- C4 (amended): `evaluate_condition` compares the rendered text with
the literal `True`: exactly that text yields `true`, and every other
rendered result, clean boolean text or not, yields `false`; the
function is total and never signals an error. -/
theorem c4_condition_never_errors :
    (∀ ret : String, ret ≠ "True" → evaluate_condition ret = false) ∧
    evaluate_condition "True" = true := by
  constructor
  · intro ret h
    simp [evaluate_condition, h]
  · rfl

/-- C4, witness: a concrete non-boolean rendered result yields the
value `false`. -/
theorem c4_witness : evaluate_condition "NotABool" = false :=
  c4_condition_never_errors.1 "NotABool" (by decide)

/-- C5, counterexample: a template referencing a variable absent from
the scope renders successfully to empty text (Jinja2 default
`Undefined`), not to an `UndefinedVariableError`. -/
theorem c5_counterexample :
    render_template 5 emptyScope (.str (varRef "x")) = .ok (.str "") := rfl

/-- C5 (amended): a reference to a variable absent from the scope is
silently substituted with empty text at every stack depth, because the
environment of `Template.__init__` keeps the Jinja2 default
`Undefined`; no undefined-variable error is surfaced. -/
theorem c5_undefined_renders_empty :
    ∀ (fuel : Nat) (scope : Scope) (nm : String), scope nm = none →
    rbrace ∉ nm.data →
    render_template fuel scope (.str (varRef nm)) = .ok (.str "") := by
  intro fuel scope nm hnone hnm
  have h1 : renderValue fuel scope (varRef nm) = .ok [] := by
    cases fuel with
    | zero =>
      simp [renderValue, tokenize_varRef nm hnm, segsRender, finalize, hnone,
        hasMarkup]
    | succ f =>
      simp [renderValue, tokenize_varRef nm hnm, segsRender, finalize, hnone,
        hasMarkup]
  simp [render_template, h1]

/-- C5, witness: a concrete absent variable renders as empty text. -/
theorem c5_witness :
    render_template 3 emptyScope (.str (varRef "q")) = .ok (.str "") :=
  c5_undefined_renders_empty 3 emptyScope "q" rfl (by decide)

/-- C6, counterexample: with one plugin declaring only `name`, an
application carrying `bogus_field` gets the unknown-field message, yet
the driver still invokes `generate` for that same application (call
log `["dummy"]`), so generation is not skipped; the other application
is processed as well. -/
theorem c6_counterexample :
    processApps [["bogus_field"], ["name"]] [pluginOkEx] =
      [([unknownFieldMsg "bogus_field" 1], ([], ["dummy"])),
       ([], ([], ["dummy"]))] := rfl

/-- C6 (amended): a field not accepted by any relevant plugin makes
validation report the unknown-field error naming the first such field
and the one-based application ordinal, and every application in the
deploy config is still processed; but generation is not skipped for
the failing application: `app_validate_fields` swallows the error, and
`main` unconditionally calls `app_render_output` for every
application. -/
theorem c6_validation_reports_but_does_not_skip :
    (∀ (plugins : List OutputPlugin) (app : App) (idx : Nat) (f : String),
      f ∈ app → fieldIsValid plugins app f = false →
      ∃ g, g ∈ app ∧ fieldIsValid plugins app g = false ∧
        app_validate_fields app idx plugins = [unknownFieldMsg g (idx + 1)]) ∧
    (∀ (plugins : List OutputPlugin) (apps : List App) (i : Nat) (app : App),
      apps.get? i = some app →
      (processApps apps plugins).get? i =
        some (app_validate_fields app i plugins,
          app_render_output app i plugins)) := by
  constructor
  · exact fun plugins app idx f hf hb =>
      app_validate_reports plugins app idx f hf hb
  · intro plugins apps i app h
    have := processAppsFrom_get? plugins apps 0 i app h
    simpa [processApps] using this

/-- C6, witness: the concrete bogus-field application is reported and
still rendered. -/
theorem c6_witness :
    (∃ g, g ∈ ["bogus_field"] ∧
      fieldIsValid [pluginOkEx] ["bogus_field"] g = false ∧
      app_validate_fields ["bogus_field"] 0 [pluginOkEx] =
        [unknownFieldMsg g 1]) ∧
    (processApps [["bogus_field"]] [pluginOkEx]).get? 0 =
      some (app_validate_fields ["bogus_field"] 0 [pluginOkEx],
        app_render_output ["bogus_field"] 0 [pluginOkEx]) := by
  constructor
  · exact c6_validation_reports_but_does_not_skip.1 [pluginOkEx]
      ["bogus_field"] 0 "bogus_field" (by simp) rfl
  · exact c6_validation_reports_but_does_not_skip.2 [pluginOkEx]
      [["bogus_field"]] 0 ["bogus_field"] rfl

/-- C7, counterexample: when the first plugin's `generate` raises
`ConfigGenerationError`, the failure is reported but the second
plugin never runs for that application (its name is absent from the
call log), contradicting the claim that subsequent plugins for the
same application are unaffected. -/
theorem c7_counterexample :
    app_render_output ["name"] 0 [pluginFailEx, pluginAfterEx] =
      (["Failed to generate deploy config: boom"], ["p1"]) := rfl

/-- C7 (amended): a `ConfigGenerationError` from a needed plugin's
`generate` is caught and reported, and it does not prevent subsequent
applications (every application contributes its entry to the driver
output); but it does abort the remaining plugins for the same
application, because the `try` block of `app_render_output` wraps the
whole plugin loop. -/
theorem c7_failure_reported_but_skips_rest :
    (∀ (app : App) (idx : Nat) (p : OutputPlugin)
      (rest : List OutputPlugin) (e : String), p.is_needed app = true →
      p.generate app (idx + 1) = .error e →
      app_render_output app idx (p :: rest) =
        (["Failed to generate deploy config: " ++ e], [p.name])) ∧
    (∀ (apps : List App) (plugins : List OutputPlugin),
      (processApps apps plugins).length = apps.length) := by
  constructor
  · intro app idx p rest e hneed hgen
    simp [app_render_output, renderLoop, hneed, hgen]
  · intro apps plugins
    exact processAppsFrom_length plugins 0 apps

/-- C7, witness: a concrete failing plugin followed by a healthy one,
and a two-application config yielding two processed entries. -/
theorem c7_witness :
    app_render_output ["x"] 4 [pluginFailEx, pluginOkEx] =
      (["Failed to generate deploy config: boom"], ["p1"]) ∧
    (processApps [["x"], ["y"]] [pluginFailEx]).length = 2 := by
  constructor
  · exact c7_failure_reported_but_skips_rest.1 ["x"] 4 pluginFailEx
      [pluginOkEx] "boom" rfl rfl
  · exact c7_failure_reported_but_skips_rest.2 [["x"], ["y"]] [pluginFailEx]

/-- C8: rendering a sequence or mapping drops exactly the entries
whose value equals the omit sentinel; the surviving entries appear in
their original order (keys preserved for mappings), each rendered and
type-fixed-up. -/
theorem c8_omit_filtering :
    (∀ (fuel : Nat) (scope : Scope) (items out : List Value),
      renderItems fuel scope items = .ok out →
      List.Forall₂ (fun v r => ∃ rv, render_template fuel scope v = .ok rv ∧
        type_fixup rv = .ok r) (items.filter (fun v => !(isOmit v))) out) ∧
    (∀ (fuel : Nat) (scope : Scope) (entries out : List (String × Value)),
      renderEntries fuel scope entries = .ok out →
      List.Forall₂ (fun e r => e.1 = r.1 ∧ ∃ rv,
        render_template fuel scope e.2 = .ok rv ∧ type_fixup rv = .ok r.2)
        (entries.filter (fun e => !(isOmit e.2))) out) :=
  ⟨renderItems_forall₂, renderEntries_forall₂⟩

/-- C8, witness: a concrete list with an omit entry in the middle
renders to the two surviving entries in order. -/
theorem c8_witness :
    List.Forall₂ (fun v r => ∃ rv, render_template 2 emptyScope v = .ok rv ∧
      type_fixup rv = .ok r)
      (([Value.int 7, Value.str OMIT_TOKEN, Value.str "a"]).filter
        (fun v => !(isOmit v)))
      [Value.int 7, Value.str "a"] :=
  c8_omit_filtering.1 2 emptyScope
    [Value.int 7, Value.str OMIT_TOKEN, Value.str "a"]
    [Value.int 7, Value.str "a"] rfl

/-- C9: rendering is the identity on plain strings containing no
template syntax, for every variable scope and stack budget. -/
theorem c9_identity_on_plain_text :
    ∀ (fuel : Nat) (scope : Scope) (s : String),
    noTemplateMarkup s.data = true →
    render_template fuel scope (.str s) = .ok (.str s) := by
  intro fuel scope s h
  have h1 : renderValue fuel scope s = .ok s.data :=
    renderValue_lits fuel scope s h
  simp [render_template, h1, mk_data_eq]

/-- C9, witness: a concrete plain string passes through unchanged. -/
theorem c9_witness :
    render_template 3 emptyScope (.str "api-v1") = .ok (.str "api-v1") :=
  c9_identity_on_plain_text 3 emptyScope "api-v1" (by decide)

/-- C10: omission is decided on the pre-render value only.  An entry
whose template merely renders to the sentinel text is kept and the
sentinel string appears literally in the output, an entry equal to the
sentinel before rendering is dropped, and in general the output length
is that of the entries whose pre-render value differs from the
sentinel. -/
theorem c10_omit_decided_pre_render :
    render_template 5 omitScopeEx (.list [.str (varRef "x")]) =
      .ok (.list [.str OMIT_TOKEN]) ∧
    render_template 5 omitScopeEx (.list [.str OMIT_TOKEN]) =
      .ok (.list []) ∧
    (∀ (fuel : Nat) (scope : Scope) (items out : List Value),
      renderItems fuel scope items = .ok out →
      out.length = (items.filter (fun v => !(isOmit v))).length) := by
  refine ⟨rfl, rfl, ?_⟩
  intro fuel scope items out h
  exact (renderItems_forall₂ fuel scope items out h).length_eq.symm

/-- C10, witness: the general length clause applied to a concrete
one-sentinel list. -/
theorem c10_witness :
    (([] : List Value)).length =
      (([Value.str OMIT_TOKEN]).filter (fun v => !(isOmit v))).length :=
  c10_omit_decided_pre_render.2.2 1 emptyScope [Value.str OMIT_TOKEN] [] rfl
